import Mathlib

/-!
Shallow embedding of the response-normalization and resilience pipeline of the
recommendations-map web application: the location-recommendation adapter
(`generateLocationRecommendations`, both the batch revision and the earlier
fan-out revision), the persona adapter (`generatePersona`), the search adapter
(`searchXProfile` with its strategy loop and enrichment step), the text
extraction utility (`extractProfileInfo`), and the two HTTP route handlers.

Outbound LLM / search calls are modelled as oracle inputs: each embedded
operation receives the already-parsed upstream responses as explicit
arguments and is otherwise a faithful translation of the TypeScript control
flow, including JavaScript truthiness (empty string and 0 are falsy, arrays
and objects are truthy) and the exact validation / deduplication / fallback
logic.  Strings are Lean strings; JS number fields that the logic only
stores or compares are rationals; the nondeterministic uuid `id` field is
omitted because no logic reads it.
-/

/-- JS-style whitespace test (the characters of the `\s` class that occur in
this development). -/
def isWsJS (c : Char) : Bool :=
  c == ' ' || c == '\t' || c == '\n' || c == '\r'

/-- Remove leading and trailing whitespace from a character list. -/
def trimChars (cs : List Char) : List Char :=
  ((cs.dropWhile isWsJS).reverse.dropWhile isWsJS).reverse

/-- JS `String.prototype.trim`. -/
def strTrim (s : String) : String := String.mk (trimChars s.toList)

/-- JS `String.prototype.toLowerCase` (ASCII approximation). -/
def lowerStr (s : String) : String := String.mk (s.toList.map Char.toLower)

/-- JS `String.prototype.length` (counted in characters here). -/
def strLen (s : String) : Nat := s.toList.length

/-- JS `s.charAt(0).toUpperCase() + s.slice(1)`. -/
def capitalize (s : String) : String :=
  match s.toList with
  | [] => ""
  | c :: cs => String.mk (Char.toUpper c :: cs)

/-- Case-sensitive: the pattern occurs at the head of the target list. -/
def listPre : List Char → List Char → Bool
  | [], _ => true
  | _ :: _, [] => false
  | p :: ps, c :: cs => p == c && listPre ps cs

/-- Case-sensitive substring occurrence (JS `String.prototype.includes`). -/
def listSub (pat : List Char) : List Char → Bool
  | [] => listPre pat []
  | l@(_ :: rest) => listPre pat l || listSub pat rest

/-- JS `s.includes(pat)`. -/
def strIncludes (s pat : String) : Bool := listSub pat.toList s.toList

/-- JS `s.startsWith(pat)`. -/
def strStarts (s pat : String) : Bool := listPre pat.toList s.toList

/-- Case-insensitive occurrence of the pattern at the head (regex `i` flag). -/
def ciPrefix : List Char → List Char → Bool
  | [], _ => true
  | _ :: _, [] => false
  | p :: ps, c :: cs => p.toLower == c.toLower && ciPrefix ps cs

/-- Case-insensitive substring occurrence. -/
def ciSub (pat : List Char) : List Char → Bool
  | [] => ciPrefix pat []
  | l@(_ :: rest) => ciPrefix pat l || ciSub pat rest

/-- `xHandle.replace(/^@/, '')`: strip one leading `@`. -/
def stripAt (s : String) : String :=
  if strStarts s "@" then String.mk (s.toList.drop 1) else s

/-- `s.toLowerCase().trim()`, the deduplication key normalization. -/
def normKey (s : String) : String := strTrim (lowerStr s)

/-- JS `a || d` for an optional string field (empty string is falsy). -/
def jsOrStr (o : Option String) (d : String) : String :=
  match o with
  | some s => if s = "" then d else s
  | none => d

/-- JS `a || d` for an optional numeric field (0 is falsy). -/
def jsOrRat (o : Option Rat) (d : Rat) : Rat :=
  match o with
  | some v => if v = 0 then d else v
  | none => d

/-- JS `Set.add` followed by `Array.from`: insertion-ordered, deduplicated. -/
def addUnique (acc : List String) (s : String) : List String :=
  if s ∈ acc then acc else acc ++ [s]

/-! ### Location data model (types/location.ts, types/api.ts) -/

/-- Geographic coordinates `{lat, lng}` modelled with rationals. -/
structure Coordinates where
  lat : Rat
  lng : Rat
deriving DecidableEq

/-- `{ lat: 43.6532, lng: -79.3832 }`, the fallback Toronto center. -/
def torontoCenter : Coordinates := ⟨43.6532, -79.3832⟩

/-- A raw candidate location as parsed from an LLM JSON response; every field
the code reads optionally is an `Option`. -/
structure RawLocation where
  name : String
  address : String
  description : String
  category : Option String
  coordinates : Option Coordinates
  rating : Option Rat
  website : Option String
deriving DecidableEq

/-- The application `Location` record (uuid `id` omitted: nondeterministic
and never read by the embedded logic). -/
structure Location where
  name : String
  address : String
  description : String
  category : String
  coordinates : Coordinates
  rating : Rat
  website : Option String
deriving DecidableEq

/-! ### Batch-strategy recommendation adapter (current openai.ts revision) -/

/-- The website sanitization inside the conversion step: drop the website if
it is falsy, or contains `google.com/maps`, or does not start with `http`,
or contains no `.`. -/
def websiteFilter (w : Option String) : Option String :=
  match w with
  | none => none
  | some s =>
    if s = "" then some s
    else if strIncludes s "google.com/maps" || !strStarts s "http" || !strIncludes s "." then
      none
    else some s

/-- Conversion of a raw candidate to a `Location` with field repair:
`category || 'attraction'`, `coordinates || torontoCenter`,
`rating || 4.0`, website sanitization. -/
def toLocation (l : RawLocation) : Location :=
  { name := l.name
    address := l.address
    description := l.description
    category := jsOrStr l.category "attraction"
    coordinates := l.coordinates.getD torontoCenter
    rating := jsOrRat l.rating 4
    website := websiteFilter l.website }

/-- The fixed backfill catalog (`defaultLocations` in the source). -/
def defaultLocations : List Location :=
  [ { name := "CN Tower"
      address := "290 Bremner Blvd, Toronto, ON M5V 3L9"
      description := "Toronto\x27s iconic landmark with breathtaking views of the city."
      category := "attraction"
      coordinates := ⟨43.6426, -79.3871⟩
      rating := 4.7
      website := some "https://www.cntower.ca/" },
    { name := "St. Lawrence Market"
      address := "93 Front St E, Toronto, ON M5E 1C3"
      description := "Historic market with fresh food and unique vendors."
      category := "shop"
      coordinates := ⟨43.6489, -79.3714⟩
      rating := 4.6
      website := some "https://www.stlawrencemarket.com/" },
    { name := "High Park"
      address := "1873 Bloor St W, Toronto, ON M6R 2Z3"
      description := "Toronto\x27s largest public park with trails, gardens and a zoo."
      category := "park"
      coordinates := ⟨43.6465, -79.4637⟩
      rating := 4.8
      website := some "https://www.toronto.ca/explore-enjoy/parks-gardens-beaches/gardens-and-horticulture/gardens-and-parks/high-park/" },
    { name := "Royal Ontario Museum"
      address := "100 Queens Park, Toronto, ON M5S 2C6"
      description := "World-class museum with art, culture & natural history."
      category := "attraction"
      coordinates := ⟨43.6677, -79.3948⟩
      rating := 4.6
      website := some "https://www.rom.on.ca/" },
    { name := "Distillery District"
      address := "55 Mill St, Toronto, ON M5A 3C4"
      description := "Historic district with shops, restaurants and galleries."
      category := "entertainment"
      coordinates := ⟨43.6503, -79.3596⟩
      rating := 4.5
      website := some "https://www.thedistillerydistrict.com/" } ]

/-- The `seenNames` / `seenAddresses` sets and the accepted candidates, in
acceptance order. -/
structure DedupState where
  names : List String
  addrs : List String
  unique : List RawLocation
deriving DecidableEq

/-- The deduplication loop: skip a candidate whose normalized name or address
was seen, otherwise accept it, and break once 5 candidates are accepted.
Both the first-pass loop and the third-round merge loop have exactly this
shape in the source. -/
def dedupLoop : List RawLocation → DedupState → DedupState
  | [], st => st
  | l :: rest, st =>
    if normKey l.name ∈ st.names ∨ normKey l.address ∈ st.addrs then
      dedupLoop rest st
    else
      let st2 : DedupState :=
        ⟨normKey l.name :: st.names, normKey l.address :: st.addrs, st.unique ++ [l]⟩
      if 5 ≤ st2.unique.length then st2 else dedupLoop rest st2

/-- If the first response held fewer than 5 candidates, a second corrective
call is made and its candidates appended. -/
def gatherData (d1 r2 : List RawLocation) : List RawLocation :=
  if d1.length < 5 then d1 ++ r2 else d1

/-- The accepted unique candidates after the first deduplication pass and,
when still short of 5, the final corrective round merged through the same
seen-sets. -/
def uniqueAccepted (d1 r2 r3 : List RawLocation) : List RawLocation :=
  let st1 := dedupLoop (gatherData d1 r2) ⟨[], [], []⟩
  if st1.unique.length < 5 then (dedupLoop r3 st1).unique else st1.unique

/-- `for (let i = 0; i < defaultLocations.length && locations.length < 5; i++)
locations.push(defaultLocations[i])`. -/
def backfillAux : List Location → List Location → List Location
  | [], locs => locs
  | d :: ds, locs => if locs.length < 5 then backfillAux ds (locs ++ [d]) else locs

/-- The parsed responses of the up-to-three generation calls of the batch
strategy.  `round1 = none` models an empty / unparsable first response (the
code throws in that case); for the corrective rounds an absent or unparsable
response contributes no candidates and is modelled by `[]`. -/
structure GenRounds where
  round1 : Option (List RawLocation)
  round2 : List RawLocation
  round3 : List RawLocation
deriving DecidableEq

/-- The batch-strategy `generateLocationRecommendations`: gather candidates,
deduplicate by normalized name and address with corrective rounds, convert
the first 5 accepted candidates with field repair, and backfill from the
static catalog when fewer than 5 remain. -/
def generateLocationRecommendations (r : GenRounds) : Except String (List Location) :=
  match r.round1 with
  | none => Except.error "Invalid location data format returned"
  | some d1 =>
    let locs := ((uniqueAccepted d1 r.round2 r.round3).take 5).map toLocation
    Except.ok (if locs.length < 5 then backfillAux defaultLocations locs else locs)

/-- The JSON shape produced by the locations route handler. -/
structure LocationsResponse where
  status : Nat
  success : Bool
  locations : Option (List Location)
  errorMsg : Option String
deriving DecidableEq

/-- `POST /api/locations`: 400 when the persona is missing, 500 when the
adapter throws, 404 when zero locations were assembled, 200 otherwise. -/
def locationsPOST (personaProvided : Bool) (r : GenRounds) : LocationsResponse :=
  if personaProvided = false then
    ⟨400, false, none, some "Invalid request. Please provide a persona."⟩
  else
    match generateLocationRecommendations r with
    | Except.error _ =>
      ⟨500, false, none, some "Failed to find recommended locations. Please try again later."⟩
    | Except.ok recs =>
      if recs.isEmpty then
        ⟨404, false, none, some "No suitable locations found. Please try a different X profile."⟩
      else ⟨200, true, some recs, none⟩

/-! ### Persona synthesis adapter (current openai.ts revision) -/

/-- A persona object as parsed from the LLM JSON response; any field may be
absent. -/
structure ParsedPersona where
  name : Option String
  handle : Option String
  bio : Option String
  traits : Option (List String)
  interests : Option (List String)
deriving DecidableEq

/-- The persona returned by `generatePersona` after post-processing. -/
structure GenPersona where
  name : String
  handle : String
  bio : Option String
  traits : List String
  interests : List String
deriving DecidableEq

/-- `generatePersona`: reject an empty response; reject when `name` is falsy
or `traits` / `interests` are absent (`!personaData.name || !personaData.traits
|| !personaData.interests` — note that an empty array is truthy in JS and
passes); replace the name `"Unknown User"` with the capitalized handle;
unconditionally overwrite the handle with the caller-supplied handle.  Every
thrown error surfaces as the generic failure message after the catch. -/
def generatePersona (handle : String) (resp : Option ParsedPersona) : Except String GenPersona :=
  match resp with
  | none => Except.error "Failed to generate persona"
  | some p =>
    if p.name.getD "" = "" ∨ p.traits = none ∨ p.interests = none then
      Except.error "Failed to generate persona"
    else
      let name0 := p.name.getD ""
      let name := if name0 = "Unknown User" then capitalize handle else name0
      Except.ok ⟨name, handle, p.bio, p.traits.getD [], p.interests.getD []⟩

/-! ### Fan-out recommendation adapter (earlier openai.ts revision) -/

/-- The location record built by the fan-out revision: no field repair for
coordinates or rating and no website handling. -/
structure LocationV2 where
  name : String
  address : String
  description : String
  category : String
  coordinates : Option Coordinates
  rating : Option Rat
deriving DecidableEq

/-- The fixed category rotation of the fan-out strategy. -/
def fanoutCategories : List String :=
  ["restaurant", "cafe", "entertainment venue", "cultural attraction", "outdoor space"]

/-- Process the five parallel single-location responses: a missing or
unparsable response yields no location for that slot; `category` falls back
to the slot category. -/
def fanoutProcess (resps : List (Option RawLocation)) : List LocationV2 :=
  (resps.zip fanoutCategories).foldl
    (fun acc pr =>
      match pr.1 with
      | some ld =>
        acc ++ [⟨ld.name, ld.address, ld.description, jsOrStr ld.category pr.2,
                 ld.coordinates, ld.rating⟩]
      | none => acc)
    []

/-- `locations.filter((l, i, self) => i === self.findIndex(x => x.name === l.name))`:
keep the first occurrence of each exact name. -/
def keepFirstAux : List LocationV2 → List String → List LocationV2
  | [], _ => []
  | l :: rest, seen =>
    if l.name ∈ seen then keepFirstAux rest seen
    else l :: keepFirstAux rest (l.name :: seen)

/-- Deduplicate by exact name, keeping first occurrences. -/
def keepFirstByName (ls : List LocationV2) : List LocationV2 := keepFirstAux ls []

/-- The fan-out `generateLocationRecommendations`: throw only when zero
locations were accepted, otherwise return the (possibly short) unique list. -/
def fanoutRecommendations (resps : List (Option RawLocation)) :
    Except String (List LocationV2) :=
  let u := keepFirstByName (fanoutProcess resps)
  if u = [] then Except.error "Failed to generate any location recommendations"
  else Except.ok u

/-! ### Search collaborator adapter (exa.ts) -/

/-- A raw Exa search result record; only the fields the embedded logic reads
are modelled (`id` and `author` are never consulted). -/
structure ExaResult where
  title : Option String
  url : Option String
  text : Option String
  highlights : Option (List String)
deriving DecidableEq

/-- `filterRelevantResults`: keep results whose url / title / text /
highlights mention the lower-cased handle in one of the recognized
patterns. -/
def filterRelevantResults (results : List ExaResult) (handle : String) : List ExaResult :=
  let lh := lowerStr handle
  results.filter fun r =>
    let urlMatch := match r.url with
      | some u =>
        strIncludes (lowerStr u) lh || strIncludes (lowerStr u) ("/" ++ lh) ||
          strIncludes (lowerStr u) ("@" ++ lh)
      | none => false
    let titleMatch := match r.title with
      | some t => strIncludes (lowerStr t) ("@" ++ lh) || strIncludes (lowerStr t) lh
      | none => false
    let textMatch := match r.text with
      | some t => strIncludes (lowerStr t) ("@" ++ lh) || strIncludes (lowerStr t) ("from:" ++ lh)
      | none => false
    let highlightMatch := match r.highlights with
      | some hs =>
        hs.any fun h => strIncludes (lowerStr h) ("@" ++ lh) || strIncludes (lowerStr h) lh
      | none => false
    urlMatch || titleMatch || textMatch || highlightMatch

/-- The shape of an axios error as far as the code inspects it:
`error.response?.status`, `error.code`, `error.response?.data?.message`,
`error.message`. -/
structure ReqError where
  status : Option Nat
  code : Option String
  dataMsg : Option String
  msg : String
deriving DecidableEq

/-- The outcome of one search strategy's outbound call: either a response
with its `results` array, or a thrown error. -/
inductive StratOutcome
  | ok (results : List ExaResult)
  | err (e : ReqError)
deriving DecidableEq

/-- How the strategy loop ended. -/
inductive LoopResult
  | found (results : List ExaResult)
  | aborted (e : ReqError)
  | exhausted (lastError : Option ReqError)
deriving DecidableEq

/-- The strategy loop of `searchXProfile`: try strategies in order; break on
the first one whose relevant results are non-empty; rethrow (abort) on a 429
or 401 error; record other errors as `lastError` and continue. -/
def strategyLoop (handle : String) : List StratOutcome → Option ReqError → LoopResult
  | [], lastErr => LoopResult.exhausted lastErr
  | StratOutcome.ok rs :: rest, lastErr =>
    let rel := filterRelevantResults rs handle
    if rel.isEmpty then strategyLoop handle rest lastErr else LoopResult.found rel
  | StratOutcome.err e :: rest, _ =>
    if e.status = some 429 ∨ e.status = some 401 then LoopResult.aborted e
    else strategyLoop handle rest (some e)

/-- A strategy outcome that makes the loop move on to the next strategy:
a successful call with no relevant results, or a non-429/401 error. -/
def strategyAdvances (handle : String) : StratOutcome → Bool
  | StratOutcome.ok rs => (filterRelevantResults rs handle).isEmpty
  | StratOutcome.err e => if e.status = some 429 ∨ e.status = some 401 then false else true

/-- A strategy outcome that succeeded but yielded zero relevant results. -/
def strategyYieldsNoRelevant (handle : String) : StratOutcome → Bool
  | StratOutcome.ok rs => (filterRelevantResults rs handle).isEmpty
  | StratOutcome.err _ => false

/-- The distinct failures `searchXProfile` can surface after its outer
catch. -/
inductive ExaFailure
  | timeout
  | invalidKey
  | rateLimit
  | apiError (msg : String)
deriving DecidableEq

/-- The outer catch of `searchXProfile`: timeout check first, then 401, then
429, then the generic `Exa API Error` with
`error.response?.data?.message || error.message || 'Failed request'`. -/
def mapReqError (e : ReqError) : ExaFailure :=
  if e.code = some "ECONNABORTED" ∨ strIncludes e.msg "timeout" then ExaFailure.timeout
  else if e.status = some 401 then ExaFailure.invalidKey
  else if e.status = some 429 then ExaFailure.rateLimit
  else ExaFailure.apiError (jsOrStr e.dataMsg (jsOrStr (some e.msg) "Failed request"))

/-- `enrichResultsWithContent`: pick up to five profile-looking urls, and when
the contents call produced results, merge text / highlights back by url
(`enriched.text || original.text`; an enriched highlights array, even empty,
replaces the original).  A failed or empty contents call leaves the results
unchanged, as does an empty url list. -/
def enrichResults (sr : List ExaResult) (contentResp : Option (List ExaResult)) :
    List ExaResult :=
  let twitterUrls :=
    ((sr.filter fun r =>
        match r.url with
        | some u => (strIncludes u "x.com/" || strIncludes u "twitter.com/") &&
            !strIncludes u "/status/"
        | none => false).filterMap (fun r => r.url)).take 5
  if twitterUrls.isEmpty then sr
  else
    match contentResp with
    | some crs =>
      sr.map fun orig =>
        match crs.find? (fun c => c.url = orig.url) with
        | some c =>
          { orig with
            text := match c.text with
              | some t => if t = "" then orig.text else some t
              | none => orig.text
            highlights := match c.highlights with
              | some hs => some hs
              | none => orig.highlights }
        | none => orig
    | none => sr

/-- `searchXProfile`: validate the api key, strip a leading `@`, run the
strategy loop over the per-strategy outcomes, enrich content-poor winning
results, and translate every thrown error through the outer catch. -/
def searchXProfile (apiKeyPresent : Bool) (xHandle : String)
    (outcomes : List StratOutcome) (contentResp : Option (List ExaResult)) :
    Except ExaFailure (List ExaResult) :=
  if apiKeyPresent = false then
    Except.error (mapReqError ⟨none, none, none, "Exa API key is required"⟩)
  else
    let cleanHandle := stripAt xHandle
    match strategyLoop cleanHandle outcomes none with
    | LoopResult.found rs =>
      let hasContent := rs.any fun r =>
        (50 < strLen (r.text.getD "")) ||
          (match r.highlights with
           | some hs => !hs.isEmpty
           | none => false)
      Except.ok (if hasContent then rs else enrichResults rs contentResp)
    | LoopResult.aborted e => Except.error (mapReqError e)
    | LoopResult.exhausted (some e) => Except.error (mapReqError e)
    | LoopResult.exhausted none =>
      Except.error (mapReqError
        ⟨none, none, none, "All search strategies failed to find relevant content"⟩)

/-! ### Text extraction utility (exa.ts, extractProfileInfo) -/

/-- The `results` field of the object handed to `extractProfileInfo`:
either not an array (or absent), or an array of records. -/
inductive ResultsField
  | invalid
  | arr (rs : List ExaResult)
deriving DecidableEq

/-- The `ProfileSignal` produced by extraction. -/
structure ProfileInfo where
  tweets : List String
  bio : String
  profileImageUrl : Option String
  name : String
  handle : String
deriving DecidableEq

/-- Separators of the tweet-splitting regex `/\n|•|—|–/`. -/
def isTweetSep (c : Char) : Bool :=
  c == '\n' || c == '•' || c == '—' || c == '–'

/-- Split at every separator character (single-character split, adjacent
separators produce empty fragments). -/
def splitEach (p : Char → Bool) : List Char → List (List Char)
  | [] => [[]]
  | c :: rest =>
    if p c then [] :: splitEach p rest
    else
      match splitEach p rest with
      | h :: t => (c :: h) :: t
      | [] => [[c]]

/-- Split at every maximal run of separator characters (regex `X+` split). -/
def splitRuns (p : Char → Bool) : List Char → List (List Char)
  | [] => [[]]
  | c :: rest =>
    if p c then [] :: splitRuns p (rest.dropWhile p)
    else
      match splitRuns p rest with
      | h :: t => (c :: h) :: t
      | [] => [[c]]
termination_by l => l.length
decreasing_by
  · exact Nat.lt_succ_of_le ((List.dropWhile_suffix p).sublist.length_le)
  · simp

/-- Split at every run of two or more newlines (regex `/\n\n+/` split). -/
def splitParas : List Char → List (List Char)
  | '\n' :: '\n' :: rest => [] :: splitParas (rest.dropWhile fun c => c == '\n')
  | c :: rest =>
    match splitParas rest with
    | h :: t => (c :: h) :: t
    | [] => [[c]]
  | [] => [[]]
termination_by l => l.length
decreasing_by
  · exact Nat.lt_of_le_of_lt ((List.dropWhile_suffix _).sublist.length_le) (by simp; omega)
  · simp

/-- The line-like units extracted from a result's `text` field: split on
newline / bullet / dash separators, trimmed, kept when of tweet-like length
and free of the follower-count boilerplate tokens. -/
def textLines (text : String) : List String :=
  ((splitEach isTweetSep text.toList).map fun cs => strTrim (String.mk cs)).filter
    fun line =>
      20 < strLen line && strLen line < 300 &&
        !strIncludes line "Followers" && !strIncludes line "Following" &&
        !strIncludes line "Posts"

/-- One result's contribution to the tweet set: the filtered title, the
long-enough highlights, and the filtered text lines, in that order. -/
def tweetsAcc (acc : List String) (r : ExaResult) : List String :=
  let acc1 := match r.title with
    | some title =>
      if title ≠ "" ∧ strTrim title ≠ "" ∧ strIncludes title "| X" = false ∧
          strIncludes title "X (formerly Twitter)" = false ∧
          strIncludes title "Home / X" = false ∧ 10 < strLen title then
        addUnique acc (strTrim title)
      else acc
    | none => acc
  let acc2 := match r.highlights with
    | some hs =>
      hs.foldl
        (fun a h =>
          if h ≠ "" ∧ strTrim h ≠ "" ∧ 10 < strLen h then addUnique a (strTrim h) else a)
        acc1
    | none => acc1
  match r.text with
  | some t => if t = "" then acc2 else (textLines t).foldl addUnique acc2
  | none => acc2

/-- JS `\w`: letters, digits, underscore. -/
def isWordChar (c : Char) : Bool := c.isAlphanum || c == '_'

/-- Scan for a case-insensitive whole-word occurrence (`\bword\b` with the
`i` flag); `prev` is the character before the current position. -/
def hasWordCIAux (w : List Char) : Option Char → List Char → Bool
  | _, [] => false
  | prev, l@(c :: rest) =>
    (ciPrefix w l &&
      (match prev with
       | some pc => !isWordChar pc
       | none => true) &&
      (match l.drop w.length with
       | [] => true
       | a :: _ => !isWordChar a)) ||
    hasWordCIAux w (some c) rest

/-- `\bw\b` case-insensitive test on a string. -/
def hasWordCI (w content : String) : Bool := hasWordCIAux w.toList none content.toList

/-- The words of the four positive bio-indicator patterns. -/
def bioIndicatorWords : List String :=
  ["organization", "community", "group", "team", "company", "startup", "agency",
   "build", "create", "develop", "innovate", "transform", "leading", "largest",
   "tech", "technology", "innovation", "excellence", "talent", "professional",
   "passionate", "dedicated", "committed", "focused", "specialized"]

/-- `bioIndicators.some(pattern => pattern.test(content))`. -/
def hasBioIndicator (content : String) : Bool :=
  bioIndicatorWords.any fun w => hasWordCI w content

/-- The lists of remaining characters after consuming one, two, ... `,ddd`
groups (the `(,\d{3})+` part of the follower-count pattern). -/
def groupRests : List Char → List (List Char)
  | ',' :: a :: b :: c :: rest =>
    if a.isDigit && b.isDigit && c.isDigit then rest :: groupRests rest else []
  | _ => []

/-- The follower-count pattern `\d{1,3}(,\d{3})+ followers` matches at the
head of the (lower-cased) character list. -/
def followerCountAt (cs : List Char) : Bool :=
  [1, 2, 3].any fun d =>
    decide ((cs.take d).length = d) && (cs.take d).all Char.isDigit &&
      (groupRests (cs.drop d)).any fun r => listPre (" followers".toList) r

/-- The follower-count pattern matches somewhere in the list. -/
def hasFollowerCountAux : List Char → Bool
  | [] => false
  | l@(_ :: rest) => followerCountAt l || hasFollowerCountAux rest

/-- `/\d{1,3}(,\d{3})+ followers/i.test(content)`. -/
def hasFollowerCount (content : String) : Bool :=
  hasFollowerCountAux (lowerStr content).toList

/-- `/^[A-Z]/.test(content)` (case-sensitive). -/
def firstUpper (s : String) : Bool :=
  match s.toList with
  | c :: _ => 'A' ≤ c && c ≤ 'Z'
  | [] => false

/-- The `excludePatterns` tests of `isValidBioContent`. -/
def excludedBio (content : String) : Bool :=
  let lc := lowerStr content
  strIncludes lc "follower:" || strIncludes lc "followers:" ||
    strIncludes lc "following:" ||
    strIncludes lc "post:" || strIncludes lc "posts:" ||
    strIncludes lc "joined " ||
    strIncludes lc "instagram photos and videos" ||
    strIncludes lc "twitter profile" ||
    strIncludes lc "x (formerly twitter)" ||
    strIncludes lc "home / x" ||
    strIncludes lc "photos et vidéos" ||
    strIncludes lc "song by" ||
    hasFollowerCount content ||
    strStarts content "http://" || strStarts content "https://" ||
    strStarts content "www." ||
    strIncludes lc "instalker.org"

/-- `isValidBioContent`: length bounds, exclusion patterns, the
handle-only check, the positive indicators, and the descriptive-words
fallback. -/
def isValidBioContent (content handle : String) : Bool :=
  if content = "" || decide (strLen content < 15) || decide (300 < strLen content) then false
  else if excludedBio content then false
  else if strIncludes (lowerStr content) (lowerStr handle) && decide (strLen content < 30) then
    false
  else if hasBioIndicator content then true
  else
    let words := splitRuns isWsJS content.toList
    decide (5 ≤ words.length) && decide (words.length ≤ 50) && firstUpper content

/-- The run of `.`-matchable characters (no newline), capped at 300
(the `.{20,300}` capture). -/
def dotTake (cs : List Char) : List Char :=
  (cs.takeWhile fun c => c ≠ '\n').take 300

/-- Backtracking over the greedy `\s*`: with `k` whitespace characters
consumed (largest first), take the `.{20,300}` capture; accept when it
reaches 20 characters. -/
def bioCaptureAux (rest : List Char) : Nat → Option (List Char)
  | 0 =>
    let cap := dotTake rest
    if 20 ≤ cap.length then some cap else none
  | k + 1 =>
    let cap := dotTake (rest.drop (k + 1))
    if 20 ≤ cap.length then some cap else bioCaptureAux rest k

/-- Match `\s*(.{20,300})` at the given position. -/
def bioCapture (rest : List Char) : Option (List Char) :=
  bioCaptureAux rest (rest.takeWhile isWsJS).length

/-- Leftmost match of `lit\s*(.{20,300})` (case-insensitive literal):
scan positions left to right; at a position where the literal matches,
try the capture, otherwise (or on capture failure) continue scanning. -/
def bioPatternScan (lit : List Char) : List Char → Option (List Char)
  | [] => none
  | l@(_ :: rest) =>
    if ciPrefix lit l then
      match bioCapture (l.drop lit.length) with
      | some cap => some cap
      | none => bioPatternScan lit rest
    else bioPatternScan lit rest

/-- The keyword alternatives of the
`/^[A-Z].*(?:org|organization|community|group|team|company)/i` pattern. -/
def orgKws : List String := ["org", "organization", "community", "group", "team", "company"]

/-- That pattern's test: a first letter, then one of the keywords occurring
case-insensitively within the same (newline-free) stretch. -/
def sentenceOrgPattern (s : String) : Bool :=
  match s.toList with
  | c :: rest =>
    c.isAlpha && orgKws.any fun kw => ciSub kw.toList (rest.takeWhile fun x => x ≠ '\n')
  | [] => false

/-- The keyword screen applied to candidate sentences in pattern 3 of
`extractTwitterBioFromText`. -/
def sentenceLooksBio (s : String) : Bool :=
  strIncludes s "largest" || strIncludes s "building" || strIncludes s "organization" ||
    strIncludes s "community" || strIncludes s "tech" || strIncludes s "innovation" ||
    strIncludes s "excellence" || sentenceOrgPattern s

/-- Separators of the sentence-splitting regex `/[.!?]+/`. -/
def isSentSep (c : Char) : Bool := c == '.' || c == '!' || c == '?'

/-- `extractTwitterBioFromText`: the two handle-anchored patterns, then
paragraph candidates, then keyword-bearing sentence candidates. -/
def extractTwitterBioFromText (text handle : String) : Option String :=
  let t := text.toList
  let tryPat := fun (lit : List Char) =>
    match bioPatternScan lit t with
    | some cap =>
      let c := strTrim (String.mk cap)
      if isValidBioContent c handle then some c else none
    | none => none
  match tryPat ('@' :: handle.toList) with
  | some b => some b
  | none =>
    match tryPat handle.toList with
    | some b => some b
    | none =>
      let paras :=
        ((splitParas t).map fun cs => strTrim (String.mk cs)).filter fun p =>
          decide (30 ≤ strLen p) && decide (strLen p ≤ 300)
      match paras.find? (fun p => isValidBioContent p handle) with
      | some p => some p
      | none =>
        let sents :=
          ((splitRuns isSentSep t).map fun cs => strTrim (String.mk cs)).filter fun s =>
            decide (20 ≤ strLen s) && decide (strLen s ≤ 250)
        sents.find? fun s => sentenceLooksBio s && isValidBioContent s handle

/-- A single or double quote (the `["']` class). -/
def isQuote (c : Char) : Bool := c == '"' || c == Char.ofNat 39

/-- Match one meta-description pattern
`<meta\s+attr=["']val["']\s+content=["']([^"']{20,300})["']` (case-insensitive)
at the head of the character list. -/
def metaAt (attr val : List Char) (t : List Char) : Option (List Char) := do
  guard (ciPrefix "<meta".toList t)
  let t1 := t.drop 5
  let n1 := (t1.takeWhile isWsJS).length
  guard (1 ≤ n1)
  let t2 := t1.drop n1
  guard (ciPrefix (attr ++ ['=']) t2)
  match t2.drop (attr.length + 1) with
  | q1 :: t4 => do
    guard (isQuote q1)
    guard (ciPrefix val t4)
    match t4.drop val.length with
    | q2 :: t6 => do
      guard (isQuote q2)
      let n2 := (t6.takeWhile isWsJS).length
      guard (1 ≤ n2)
      let t7 := t6.drop n2
      guard (ciPrefix "content=".toList t7)
      match t7.drop 8 with
      | q3 :: t9 => do
        guard (isQuote q3)
        let cap := t9.takeWhile fun c => !isQuote c
        guard (20 ≤ cap.length ∧ cap.length ≤ 300)
        match t9.drop cap.length with
        | q4 :: _ => do
          guard (isQuote q4)
          pure cap
        | [] => none
      | [] => none
    | [] => none
  | [] => none

/-- Leftmost occurrence of the meta pattern in the text. -/
def metaScan (attr val : List Char) : List Char → Option (List Char)
  | [] => none
  | l@(_ :: rest) =>
    match metaAt attr val l with
    | some cap => some cap
    | none => metaScan attr val rest

/-- `extractBioFromMetaTags`: the three meta patterns in order, each match
trimmed and re-checked for length. -/
def extractBioFromMetaTags (text : String) : Option String :=
  let t := text.toList
  let tryPat := fun (attr val : String) =>
    match metaScan attr.toList val.toList t with
    | some cap =>
      let c := strTrim (String.mk cap)
      if 20 ≤ strLen c ∧ strLen c ≤ 300 then some c else none
    | none => none
  match tryPat "name" "description" with
  | some b => some b
  | none =>
    match tryPat "property" "og:description" with
    | some b => some b
    | none => tryPat "name" "twitter:description"

/-- The four bio-extraction strategies applied to one result, in order:
text patterns, highlights, meta tags, title fragments. -/
def bioFromResult (r : ExaResult) (handle : String) : Option String :=
  let s1 := match r.text with
    | some t => if t = "" then none else extractTwitterBioFromText t handle
    | none => none
  match s1 with
  | some b => some b
  | none =>
    let s2 := match r.highlights with
      | some hs => if hs.isEmpty then none else hs.find? fun h => isValidBioContent h handle
      | none => none
    match s2 with
    | some b => some b
    | none =>
      let s3 := match r.text with
        | some t => if t = "" then none else extractBioFromMetaTags t
        | none => none
      match s3 with
      | some b => some b
      | none =>
        match r.title with
        | some title =>
          if title = "" then none
          else
            let parts :=
              (splitEach (fun c => c == '|' || c == '•' || c == '@') title.toList).map
                fun cs => strTrim (String.mk cs)
            parts.find? fun p => isValidBioContent p handle
        | none => none

/-- The `foundBio` loop: the first result (in order) whose strategies
produce a bio. -/
def bioSearch : List ExaResult → String → Option String
  | [], _ => none
  | r :: rest, h =>
    match bioFromResult r h with
    | some b => some b
    | none => bioSearch rest h

/-- Platform categories inferred from one result's url (insertion order of
the `categories` set). -/
def inferCats (acc : List String) (r : ExaResult) : List String :=
  match r.url with
  | some u =>
    if u = "" then acc
    else
      let a1 := if strIncludes u "instagram" then addUnique acc "social media creator" else acc
      let a2 := if strIncludes u "linkedin" then addUnique a1 "professional" else a1
      let a3 := if strIncludes u "github" then addUnique a2 "developer" else a2
      let a4 := if strIncludes u "youtube" then addUnique a3 "content creator" else a3
      let a5 := if strIncludes u "music" then addUnique a4 "musician" else a4
      if strIncludes u "artist" then addUnique a5 "artist" else a5
  | none => acc

/-- Profession keywords inferred from one result's lower-cased title
(insertion order of the `keywords` set). -/
def inferKws (acc : List String) (r : ExaResult) : List String :=
  match r.title with
  | some t0 =>
    if t0 = "" then acc
    else
      let t := lowerStr t0
      let a1 := if strIncludes t "developer" || strIncludes t "dev" then
          addUnique acc "developer" else acc
      let a2 := if strIncludes t "design" || strIncludes t "designer" then
          addUnique a1 "designer" else a1
      let a3 := if strIncludes t "music" || strIncludes t "musician" then
          addUnique a2 "musician" else a2
      let a4 := if strIncludes t "artist" then addUnique a3 "artist" else a3
      let a5 := if strIncludes t "writer" then addUnique a4 "writer" else a4
      let a6 := if strIncludes t "entrepreneur" then addUnique a5 "entrepreneur" else a5
      let a7 := if strIncludes t "ceo" || strIncludes t "founder" then
          addUnique a6 "entrepreneur" else a6
      let a8 := if strIncludes t "tech" || strIncludes t "technology" then
          addUnique a7 "tech enthusiast" else a7
      let a9 := if strIncludes t "crypto" || strIncludes t "blockchain" || strIncludes t "dao" then
          addUnique a8 "crypto enthusiast" else a8
      if strIncludes t "nft" then addUnique a9 "NFT creator" else a9
  | none => acc

/-- `generateInferredBio`: descriptor from url categories then title
keywords; organization wording when the name carries an organization token;
otherwise the plain default. -/
def generateInferredBio (name handle : String) (results : List ExaResult) : String :=
  let categories := results.foldl inferCats []
  let keywords := results.foldl inferKws []
  match categories ++ keywords with
  | primary :: _ => name ++ " • " ++ primary ++ " • X user @" ++ handle
  | [] =>
    if strIncludes name "DAO" || strIncludes name "Corp" || strIncludes name "Inc" ||
        strIncludes name "Lab" || strIncludes name "Studio" || strIncludes name "Team" then
      name ++ " • Organization • Follow us on X @" ++ handle
    else name ++ " X user @" ++ handle

/-- The leading-name regex `/^([^(@|]+?)(?:\s*[\(@|]|$)/` applied to a title:
the (trimmed) longest delimiter-free leading fragment, when non-empty. -/
def extractNameFromTitle (title : String) : Option String :=
  let m := title.toList.takeWhile fun c => !(c == '(' || c == '@' || c == '|')
  if m.isEmpty then none
  else
    let nm := strTrim (String.mk m)
    if nm = "" then none else some nm

/-- The name-extraction loop over result titles: first acceptable extracted
name wins. -/
def nameSearch : List ExaResult → Option String
  | [] => none
  | r :: rest =>
    match r.title with
    | some title =>
      if title = "" then nameSearch rest
      else
        match extractNameFromTitle title with
        | some nm =>
          if strIncludes nm "X (formerly Twitter)" = false ∧
              strIncludes nm "Home / X" = false ∧
              strIncludes nm "twitter.com" = false ∧ strLen nm < 50 then
            some nm
          else nameSearch rest
        | none => nameSearch rest
    | none => nameSearch rest

/-- `extractProfileInfo`: throw on a missing result object or a non-array
`results` field; otherwise collect tweets, run the bio strategies (falling
back to the inferred bio computed from the still-default capitalized-handle
name), then run name extraction.  The handle is always the requested
handle; this revision never assigns `profileImageUrl`. -/
def extractProfileInfo (searchResult : Option ResultsField) (requestedHandle : String) :
    Except String ProfileInfo :=
  match searchResult with
  | none => Except.error "No valid search results received from Exa API"
  | some ResultsField.invalid => Except.error "No valid search results received from Exa API"
  | some (ResultsField.arr results) =>
    let capitalizedHandle := capitalize requestedHandle
    let tweets := (results.foldl tweetsAcc []).take 20
    let bio := match bioSearch results requestedHandle with
      | some b => b
      | none => generateInferredBio capitalizedHandle requestedHandle results
    let name := match nameSearch results with
      | some nm => nm
      | none => capitalizedHandle
    Except.ok ⟨tweets, bio, none, name, requestedHandle⟩

/-! ### Persona route handler (api/persona/route.ts) -/

/-- The persona record serialized by the persona route. -/
structure FinalPersona where
  name : String
  handle : String
  bio : Option String
  traits : List String
  interests : List String
  profileImageUrl : Option String
deriving DecidableEq

/-- The JSON shape produced by the persona route handler. -/
structure PersonaRouteResponse where
  status : Nat
  success : Bool
  personaOut : Option FinalPersona
  errorMsg : Option String
deriving DecidableEq

/-- `POST /api/persona`: 400 on a falsy handle; 500 when the search adapter
(or extraction) throws; 404 when extraction yields no tweets; 500 when
persona generation throws; otherwise 200 with the handle overridden by the
requested handle and an `Unknown User` name replaced by the extracted
name. -/
def personaPOST (xHandle : Option String) (outcomes : List StratOutcome)
    (contentResp : Option (List ExaResult)) (genResp : Option ParsedPersona) :
    PersonaRouteResponse :=
  match xHandle with
  | none => ⟨400, false, none, some "Invalid X handle. Please provide a valid X username."⟩
  | some xh =>
    if xh = "" then
      ⟨400, false, none, some "Invalid X handle. Please provide a valid X username."⟩
    else
      let cleanHandle := stripAt xh
      match searchXProfile true cleanHandle outcomes contentResp with
      | Except.error _ =>
        ⟨500, false, none,
          some "Failed to fetch X profile data. Please check the handle and try again."⟩
      | Except.ok results =>
        match extractProfileInfo (some (ResultsField.arr results)) cleanHandle with
        | Except.error _ =>
          ⟨500, false, none,
            some "Failed to fetch X profile data. Please check the handle and try again."⟩
        | Except.ok profileInfo =>
          if profileInfo.tweets.isEmpty then
            ⟨404, false, none,
              some "Could not find X profile data. Please check the handle and try again."⟩
          else
            match generatePersona cleanHandle genResp with
            | Except.error _ =>
              ⟨500, false, none,
                some "Failed to generate persona from the X data. Please try again later."⟩
            | Except.ok personaData =>
              let finalPersona : FinalPersona :=
                { name := if personaData.name = "Unknown User" then profileInfo.name
                    else personaData.name
                  handle := cleanHandle
                  bio := personaData.bio
                  traits := personaData.traits
                  interests := personaData.interests
                  profileImageUrl := profileInfo.profileImageUrl }
              ⟨200, true, some finalPersona, none⟩

/-! ### Predicates taken from the claim wording (for refutation only) -/

/-- The character list after the first `://`, if any. -/
def afterScheme : List Char → Option (List Char)
  | ':' :: '/' :: '/' :: rest => some rest
  | _ :: rest => afterScheme rest
  | [] => none

/-- The host portion of a URL string: what follows `://` up to the next `/`. -/
def urlHost (w : String) : List Char :=
  match afterScheme w.toList with
  | some rest => rest.takeWhile fun c => c ≠ '/'
  | none => []

/-- Modelled from the spec wording of claim C7 (not from the code): the
website should be absent when the raw URL lacks an `http` scheme, lacks a
`.` in its *host*, or is a mapping-service link. -/
def specWebsiteMissing (w : String) : Bool :=
  !strStarts w "http" || !listSub ['.'] (urlHost w) || strIncludes w "google.com/maps"

/-- Modelled from the spec wording of claim C8 (not from the code): a
plausible bounding region for Toronto containing the default center and all
catalog coordinates. -/
def inTorontoRegion (c : Coordinates) : Bool :=
  decide ((43 : Rat) ≤ c.lat) && decide (c.lat ≤ (44 : Rat)) &&
    decide ((-80.5 : Rat) ≤ c.lng) && decide (c.lng ≤ (-78.5 : Rat))

/-! ### Concrete inputs used by witnesses and counterexamples -/

/-- A first response that parsed but contained no candidates. -/
def emptyRounds : GenRounds := ⟨some [], [], []⟩

/-- A generated candidate that collides (by normalized name) with the first
backfill catalog entry. -/
def c1Cand : RawLocation :=
  ⟨"CN Tower", "1 Fake St", "A generated candidate named like the catalog entry",
   none, none, none, none⟩

def c1Rounds : GenRounds := ⟨some [c1Cand], [], []⟩

/-- A generated candidate that collides (by normalized name) with the third
backfill catalog entry. -/
def c3Cand : RawLocation :=
  ⟨"High Park", "99 Fake Rd", "A generated candidate named like the catalog entry",
   none, none, none, none⟩

def c3Rounds : GenRounds := ⟨some [c3Cand], [], []⟩

/-- A generated candidate whose coordinates are far outside Toronto. -/
def c8Cand : RawLocation :=
  ⟨"Zero Place", "0 Null Island", "Candidate with far-away coordinates",
   none, some ⟨0, 0⟩, none, none⟩

def c8Rounds : GenRounds := ⟨some [c8Cand], [], []⟩

/-- A search result relevant to the handle `bob` that yields one tweet. -/
def bobResult : ExaResult := ⟨none, none, none, some ["hello there @bob greetings ok"]⟩

/-- A parsed generation response whose handle field disagrees with the
requested handle. -/
def bobParsed : ParsedPersona := ⟨some "Bob B", some "someoneelse", some "bio", some ["t"], some ["i"]⟩

/-- A search result relevant to the pathological handle `unknown User`. -/
def uuResult : ExaResult := ⟨none, none, none, some ["hello there @unknown User greetings"]⟩

/-- A parsed generation response that returned the placeholder name. -/
def uuParsed : ParsedPersona := ⟨some "Unknown User", some "ig", some "bio", some ["t"], some ["i"]⟩

/-- A search result relevant to the handle `alice` that yields one tweet. -/
def aliceResult : ExaResult := ⟨none, none, none, some ["hello there @alice greetings ok"]⟩

/-! ### Helper lemmas -/

/-- The backfill loop appends catalog entries in order up to the target
cardinality of 5. -/
theorem backfillAux_eq (ds : List Location) :
    ∀ locs : List Location, backfillAux ds locs = locs ++ ds.take (5 - locs.length) := by
  induction ds with
  | nil => intro locs; simp [backfillAux]
  | cons d ds ih =>
    intro locs
    simp only [backfillAux]
    split
    · rename_i hlt
      rw [ih (locs ++ [d])]
      have h1 : (locs ++ [d]).length = locs.length + 1 := by simp
      rw [h1]
      have h2 : 5 - locs.length = (5 - (locs.length + 1)) + 1 := by omega
      rw [h2, List.take_succ_cons]
      simp
    · rename_i hge
      have h0 : 5 - locs.length = 0 := by omega
      simp [h0]

/-- Invariant of the deduplication loop: the accepted list stays pairwise
distinct in normalized name and address, and every accepted entry's keys are
registered in the seen-sets. -/
theorem dedupLoop_inv (input : List RawLocation) :
    ∀ st : DedupState,
      (st.unique.Pairwise fun a b =>
        normKey a.name ≠ normKey b.name ∧ normKey a.address ≠ normKey b.address) →
      (∀ l ∈ st.unique, normKey l.name ∈ st.names ∧ normKey l.address ∈ st.addrs) →
      ((dedupLoop input st).unique.Pairwise fun a b =>
        normKey a.name ≠ normKey b.name ∧ normKey a.address ≠ normKey b.address) ∧
      (∀ l ∈ (dedupLoop input st).unique,
        normKey l.name ∈ (dedupLoop input st).names ∧
          normKey l.address ∈ (dedupLoop input st).addrs) := by
  induction input with
  | nil => intro st h1 h2; simpa [dedupLoop] using ⟨h1, h2⟩
  | cons l rest ih =>
    intro st h1 h2
    simp only [dedupLoop]
    split
    · exact ih st h1 h2
    · rename_i hnot
      push_neg at hnot
      have hp : (st.unique ++ [l]).Pairwise fun a b =>
          normKey a.name ≠ normKey b.name ∧ normKey a.address ≠ normKey b.address := by
        rw [List.pairwise_append]
        refine ⟨h1, by simp, ?_⟩
        intro a ha b hb
        have hb2 : b = l := by simpa using hb
        subst hb2
        have hmem := h2 a ha
        refine ⟨fun heq => hnot.1 (heq ▸ hmem.1), fun heq => hnot.2 (heq ▸ hmem.2)⟩
      have hm : ∀ x ∈ st.unique ++ [l],
          normKey x.name ∈ normKey l.name :: st.names ∧
            normKey x.address ∈ normKey l.address :: st.addrs := by
        intro x hx
        rcases List.mem_append.1 hx with hx1 | hx1
        · exact ⟨List.mem_cons_of_mem _ (h2 x hx1).1, List.mem_cons_of_mem _ (h2 x hx1).2⟩
        · have hx2 : x = l := by simpa using hx1
          subst hx2
          exact ⟨List.mem_cons_self _ _, List.mem_cons_self _ _⟩
      split
      · exact ⟨hp, hm⟩
      · exact ih _ hp hm

/-- The accepted unique candidates are pairwise distinct in normalized name
and address. -/
theorem uniqueAccepted_pairwise (d1 r2 r3 : List RawLocation) :
    (uniqueAccepted d1 r2 r3).Pairwise fun a b =>
      normKey a.name ≠ normKey b.name ∧ normKey a.address ≠ normKey b.address := by
  unfold uniqueAccepted
  have h0 := dedupLoop_inv (gatherData d1 r2) ⟨[], [], []⟩ (by simp) (by simp)
  dsimp only
  split
  · exact (dedupLoop_inv r3 _ h0.1 h0.2).1
  · exact h0.1

/-- Closed form of the batch recommendation adapter on a parsable first
response: converted accepted candidates followed by the catalog backfill. -/
theorem generateLocations_eq (r : GenRounds) (d1 : List RawLocation) (h : r.round1 = some d1) :
    generateLocationRecommendations r =
      Except.ok (((uniqueAccepted d1 r.round2 r.round3).take 5).map toLocation ++
        defaultLocations.take
          (5 - (((uniqueAccepted d1 r.round2 r.round3).take 5).map toLocation).length)) := by
  unfold generateLocationRecommendations
  rw [h]
  simp only
  split
  · rw [backfillAux_eq]
  · rename_i hge
    push_neg at hge
    have hle : (((uniqueAccepted d1 r.round2 r.round3).take 5).map toLocation).length ≤ 5 := by
      simp [List.length_take]
    have h0 : 5 - (((uniqueAccepted d1 r.round2 r.round3).take 5).map toLocation).length = 0 := by
      omega
    rw [h0]
    simp

/-- The batch recommendation adapter always returns exactly 5 locations on a
parsable first response. -/
theorem generateLocations_length (r : GenRounds) (d1 : List RawLocation)
    (h : r.round1 = some d1) :
    ∃ locs, generateLocationRecommendations r = Except.ok locs ∧ locs.length = 5 := by
  refine ⟨_, generateLocations_eq r d1 h, ?_⟩
  have h1 : (((uniqueAccepted d1 r.round2 r.round3).take 5).map toLocation).length ≤ 5 := by
    simp [List.length_take]
  have h2 : defaultLocations.length = 5 := by rfl
  simp only [List.length_append, List.length_take, h2]
  omega

/-- The fan-out deduplication returns the empty list only on the empty
list. -/
theorem keepFirstByName_nil_iff (ls : List LocationV2) : keepFirstByName ls = [] ↔ ls = [] := by
  cases ls with
  | nil => simp [keepFirstByName, keepFirstAux]
  | cons l rest => simp [keepFirstByName, keepFirstAux]

/-- A strategy whose call succeeded without relevant results is skipped. -/
theorem strategyLoop_skip_ok (h : String) (rs : List ExaResult) (rest : List StratOutcome)
    (last : Option ReqError) (hrel : (filterRelevantResults rs h).isEmpty = true) :
    strategyLoop h (StratOutcome.ok rs :: rest) last = strategyLoop h rest last := by
  simp [strategyLoop, hrel]

/-- A non-429/401 error moves the loop to the next strategy, recording the
error. -/
theorem strategyLoop_skip_err (h : String) (e : ReqError) (rest : List StratOutcome)
    (last : Option ReqError) (hab : ¬(e.status = some 429 ∨ e.status = some 401)) :
    strategyLoop h (StratOutcome.err e :: rest) last = strategyLoop h rest (some e) := by
  simp only [strategyLoop]
  rw [if_neg hab]

/-- A 429/401 error aborts the loop at its own strategy. -/
theorem strategyLoop_abort_head (h : String) (e : ReqError) (rest : List StratOutcome)
    (last : Option ReqError) (hab : e.status = some 429 ∨ e.status = some 401) :
    strategyLoop h (StratOutcome.err e :: rest) last = LoopResult.aborted e := by
  simp only [strategyLoop]
  rw [if_pos hab]

/-- A 429/401 error aborts the loop no matter what strategies follow it,
provided no earlier strategy short-circuited. -/
theorem strategyLoop_abort (h : String) (pre post : List StratOutcome) (e : ReqError)
    (last : Option ReqError) (hpre : ∀ o ∈ pre, strategyAdvances h o = true)
    (hab : e.status = some 429 ∨ e.status = some 401) :
    strategyLoop h (pre ++ StratOutcome.err e :: post) last = LoopResult.aborted e := by
  induction pre generalizing last with
  | nil => simpa using strategyLoop_abort_head h e post last hab
  | cons o pre ih =>
    have ho := hpre o (by simp)
    cases o with
    | ok rs =>
      have hrel : (filterRelevantResults rs h).isEmpty = true := by
        simpa [strategyAdvances] using ho
      rw [List.cons_append, strategyLoop_skip_ok h rs _ last hrel]
      exact ih last (fun x hx => hpre x (List.mem_cons_of_mem _ hx))
    | err e2 =>
      have hne : ¬(e2.status = some 429 ∨ e2.status = some 401) := by
        intro hc
        simp [strategyAdvances, if_pos hc] at ho
      rw [List.cons_append, strategyLoop_skip_err h e2 _ last hne]
      exact ih (some e2) (fun x hx => hpre x (List.mem_cons_of_mem _ hx))

/-- When every strategy succeeds with zero relevant results the loop
exhausts, leaving `lastError` untouched. -/
theorem strategyLoop_exhausted_of_all (h : String) (outcomes : List StratOutcome)
    (hall : outcomes.all (strategyYieldsNoRelevant h) = true) :
    ∀ last, strategyLoop h outcomes last = LoopResult.exhausted last := by
  induction outcomes with
  | nil => intro last; simp [strategyLoop]
  | cons o rest ih =>
    intro last
    rw [List.all_cons, Bool.and_eq_true] at hall
    cases o with
    | ok rs =>
      have hrel : (filterRelevantResults rs h).isEmpty = true := by
        simpa [strategyYieldsNoRelevant] using hall.1
      rw [strategyLoop_skip_ok h rs rest last hrel]
      exact ih hall.2 last
    | err e => simp [strategyYieldsNoRelevant] at hall

/-- Once an error is recorded, the loop can never end in
`exhausted none`. -/
theorem strategyLoop_ne_exhausted_none (h : String) (outcomes : List StratOutcome) :
    ∀ e : ReqError, strategyLoop h outcomes (some e) ≠ LoopResult.exhausted none := by
  induction outcomes with
  | nil => intro e; simp [strategyLoop]
  | cons o rest ih =>
    intro e
    cases o with
    | ok rs =>
      by_cases hrel : (filterRelevantResults rs h).isEmpty
      · rw [strategyLoop_skip_ok h rs rest (some e) hrel]
        exact ih e
      · simp only [strategyLoop]
        rw [if_neg hrel]
        simp
    | err e2 =>
      by_cases hab : e2.status = some 429 ∨ e2.status = some 401
      · rw [strategyLoop_abort_head h e2 rest (some e) hab]
        simp
      · rw [strategyLoop_skip_err h e2 rest (some e) hab]
        exact ih e2

/-- The loop ends in `exhausted none` exactly when every strategy succeeded
with zero relevant results. -/
theorem strategyLoop_exhausted_none_iff (h : String) (outcomes : List StratOutcome) :
    strategyLoop h outcomes none = LoopResult.exhausted none ↔
      outcomes.all (strategyYieldsNoRelevant h) = true := by
  constructor
  · induction outcomes with
    | nil => intro _; rfl
    | cons o rest ih =>
      intro heq
      cases o with
      | ok rs =>
        by_cases hrel : (filterRelevantResults rs h).isEmpty
        · rw [strategyLoop_skip_ok h rs rest none hrel] at heq
          rw [List.all_cons, Bool.and_eq_true]
          exact ⟨by simpa [strategyYieldsNoRelevant] using hrel, ih heq⟩
        · simp only [strategyLoop] at heq
          rw [if_neg hrel] at heq
          simp at heq
      | err e =>
        by_cases hab : e.status = some 429 ∨ e.status = some 401
        · rw [strategyLoop_abort_head h e rest none hab] at heq
          simp at heq
        · rw [strategyLoop_skip_err h e rest none hab] at heq
          exact absurd heq (strategyLoop_ne_exhausted_none h rest e)
  · intro hall
    exact strategyLoop_exhausted_of_all h outcomes hall none

/-- When every strategy yields zero relevant results, `searchXProfile`
throws the generic all-strategies-failed error. -/
theorem searchXProfile_no_relevant (xh : String) (outcomes : List StratOutcome)
    (c : Option (List ExaResult))
    (hall : outcomes.all (strategyYieldsNoRelevant (stripAt xh)) = true) :
    searchXProfile true xh outcomes c =
      Except.error (ExaFailure.apiError "All search strategies failed to find relevant content") := by
  unfold searchXProfile
  simp only [Bool.true_eq_false, if_false]
  rw [strategyLoop_exhausted_of_all (stripAt xh) outcomes hall none]
  rfl

/-- A search failure makes the persona route answer 500. -/
theorem personaPOST_error_of_search (xh : String) (outcomes : List StratOutcome)
    (c : Option (List ExaResult)) (g : Option ParsedPersona) (f : ExaFailure)
    (hxh : xh ≠ "") (hs : searchXProfile true (stripAt xh) outcomes c = Except.error f) :
    personaPOST (some xh) outcomes c g =
      ⟨500, false, none,
        some "Failed to fetch X profile data. Please check the handle and try again."⟩ := by
  simp only [personaPOST]
  rw [if_neg hxh, hs]

/-- Shape of a successful persona route response: the search, extraction and
generation steps all succeeded and the persona fields are assembled from
their outputs. -/
theorem personaPOST_personaOut (xh : String) (outcomes : List StratOutcome)
    (c : Option (List ExaResult)) (g : Option ParsedPersona) (p : FinalPersona)
    (hp : (personaPOST (some xh) outcomes c g).personaOut = some p) :
    ∃ rs pi pd, searchXProfile true (stripAt xh) outcomes c = Except.ok rs ∧
      extractProfileInfo (some (ResultsField.arr rs)) (stripAt xh) = Except.ok pi ∧
      generatePersona (stripAt xh) g = Except.ok pd ∧
      p = ⟨if pd.name = "Unknown User" then pi.name else pd.name, stripAt xh, pd.bio,
           pd.traits, pd.interests, pi.profileImageUrl⟩ := by
  simp only [personaPOST] at hp
  split at hp
  · simp at hp
  · split at hp
    · simp at hp
    · rename_i rs hrs
      split at hp
      · simp at hp
      · rename_i pi hpi
        split at hp
        · simp at hp
        · split at hp
          · simp at hp
          · rename_i pd hpd
            refine ⟨rs, pi, pd, hrs, hpi, hpd, ?_⟩
            simp only [Option.some.injEq] at hp
            exact hp.symm

/-- Shape of a successful `generatePersona` call: the parsed name was
non-empty and the output name is the placeholder-corrected parsed name. -/
theorem generatePersona_ok_name (handle : String) (g : Option ParsedPersona) (pd : GenPersona)
    (h : generatePersona handle g = Except.ok pd) :
    ∃ pr, g = some pr ∧ pr.name.getD "" ≠ "" ∧
      pd.name = (if pr.name.getD "" = "Unknown User" then capitalize handle
        else pr.name.getD "") := by
  cases g with
  | none => simp [generatePersona] at h
  | some pr =>
    simp only [generatePersona] at h
    split at h
    · simp at h
    · rename_i hcond
      push_neg at hcond
      simp only [Except.ok.injEq] at h
      exact ⟨pr, rfl, hcond.1, by rw [← h]⟩

/-! ### Claim theorems -/

/-- C1 (amended): every successful locations response carries exactly 5
Location records; the candidates accepted by deduplication are pairwise
distinct in normalized name and address, so whenever at least 5 candidates
were accepted (no backfill needed) the 5 returned records are pairwise
distinct.  (As the counterexample shows, a backfilled catalog entry may
duplicate an accepted candidate, so distinctness of the full output cannot
be guaranteed unconditionally.) -/
theorem c1_success_five_locations (r : GenRounds) (d1 : List RawLocation)
    (h : r.round1 = some d1) :
    ∃ locs, locationsPOST true r = ⟨200, true, some locs, none⟩ ∧ locs.length = 5 ∧
      (5 ≤ (uniqueAccepted d1 r.round2 r.round3).length →
        locs.Pairwise fun a b =>
          normKey a.name ≠ normKey b.name ∧ normKey a.address ≠ normKey b.address) := by
  obtain ⟨locs, hgen, hlen⟩ := generateLocations_length r d1 h
  refine ⟨locs, ?_, hlen, ?_⟩
  · simp only [locationsPOST, if_neg (by simp : ¬(true = false))]
    rw [hgen]
    have hne : locs.isEmpty = false := by
      cases locs with
      | nil => simp at hlen
      | cons a l => rfl
    simp [hne]
  · intro hfive
    have heq := generateLocations_eq r d1 h
    rw [heq] at hgen
    have hmaplen : (((uniqueAccepted d1 r.round2 r.round3).take 5).map toLocation).length = 5 := by
      simp [List.length_take]
      omega
    rw [hmaplen] at hgen
    simp only [Nat.sub_self, List.take_zero, List.append_nil, Except.ok.injEq] at hgen
    subst hgen
    have hpw := uniqueAccepted_pairwise d1 r.round2 r.round3
    have hpwt : ((uniqueAccepted d1 r.round2 r.round3).take 5).Pairwise fun a b =>
        normKey a.name ≠ normKey b.name ∧ normKey a.address ≠ normKey b.address :=
      hpw.sublist (List.take_sublist 5 _)
    rw [List.pairwise_map]
    exact hpwt.imp fun hab => hab

/-- C1 witness: a parsable but empty first response still produces a
successful response with 5 locations (entirely backfilled). -/
theorem c1_witness :
    ∃ locs, locationsPOST true emptyRounds = ⟨200, true, some locs, none⟩ ∧ locs.length = 5 ∧
      (5 ≤ (uniqueAccepted [] emptyRounds.round2 emptyRounds.round3).length →
        locs.Pairwise fun a b =>
          normKey a.name ≠ normKey b.name ∧ normKey a.address ≠ normKey b.address) :=
  c1_success_five_locations emptyRounds [] rfl

/-- C1 counterexample: a single accepted candidate named "CN Tower" at a
fake address is followed by the backfilled catalog "CN Tower", so the
successful (200, success=true) response contains two of five locations with
the same normalized name — refuting the claimed unconditional
distinctness. -/
theorem c1_counterexample :
    (locationsPOST true c1Rounds).success = true ∧
    ((locationsPOST true c1Rounds).locations.map fun ls => ls.map fun l => normKey l.name) =
      some ["cn tower", "cn tower", "st. lawrence market", "high park",
            "royal ontario museum"] := by
  exact ⟨rfl, rfl⟩

/-- C2: every persona produced by the persona route carries the requested
handle with one leading `@` stripped, no matter what the search, extraction
or generation oracles returned. -/
theorem c2_handle_always_requested (xh : String) (outcomes : List StratOutcome)
    (c : Option (List ExaResult)) (g : Option ParsedPersona) (p : FinalPersona)
    (hp : (personaPOST (some xh) outcomes c g).personaOut = some p) :
    p.handle = stripAt xh := by
  obtain ⟨rs, pi, pd, _, _, _, hpeq⟩ := personaPOST_personaOut xh outcomes c g p hp
  rw [hpeq]

/-- C2 witness: a concrete successful run for the handle `@bob` whose
generation response claimed a different handle; the output handle is
`bob`. -/
theorem c2_witness :
    (personaPOST (some "@bob") [StratOutcome.ok [bobResult]] none (some bobParsed)).personaOut =
      some ⟨"Bob B", "bob", some "bio", ["t"], ["i"], none⟩ ∧
    FinalPersona.handle ⟨"Bob B", "bob", some "bio", ["t"], ["i"], none⟩ = stripAt "@bob" :=
  ⟨by rfl,
   c2_handle_always_requested "@bob" [StratOutcome.ok [bobResult]] none (some bobParsed)
     ⟨"Bob B", "bob", some "bio", ["t"], ["i"], none⟩ (by rfl)⟩

/-- C3 (amended): the batch adapter appends catalog entries in catalog order
until 5 locations are reached, with no distinctness check of the appended
entries against the accepted candidates; and in the fan-out revision the
zero-accepted-locations error occurs exactly when zero locations were
accepted, never for a non-empty partial result. -/
theorem c3_backfill_policy :
    (∀ (r : GenRounds) (d1 : List RawLocation), r.round1 = some d1 →
      generateLocationRecommendations r =
        Except.ok (((uniqueAccepted d1 r.round2 r.round3).take 5).map toLocation ++
          defaultLocations.take
            (5 - (((uniqueAccepted d1 r.round2 r.round3).take 5).map toLocation).length)))
    ∧ (∀ resps : List (Option RawLocation),
        (∃ e, fanoutRecommendations resps = Except.error e) ↔ fanoutProcess resps = []) := by
  constructor
  · exact generateLocations_eq
  · intro resps
    unfold fanoutRecommendations
    dsimp only
    split
    · rename_i hnil
      simp only [keepFirstByName_nil_iff] at hnil
      exact ⟨fun _ => hnil, fun _ => ⟨_, rfl⟩⟩
    · rename_i hnn
      simp only [keepFirstByName_nil_iff] at hnn
      constructor
      · intro ⟨e, he⟩
        simp at he
      · intro hc
        exact absurd hc hnn

/-- C3 witness: the closed backfill form at the concrete empty-candidates
input, and the fan-out error equivalence at a concrete one-response
input. -/
theorem c3_witness :
    generateLocationRecommendations emptyRounds =
      Except.ok (((uniqueAccepted [] emptyRounds.round2 emptyRounds.round3).take 5).map
          toLocation ++
        defaultLocations.take
          (5 - (((uniqueAccepted [] emptyRounds.round2 emptyRounds.round3).take 5).map
            toLocation).length)) ∧
    ((∃ e, fanoutRecommendations [some c1Cand] = Except.error e) ↔
      fanoutProcess [some c1Cand] = []) :=
  ⟨c3_backfill_policy.1 emptyRounds [] rfl, c3_backfill_policy.2 [some c1Cand]⟩

/-- C3 counterexample: the accepted set is exactly one candidate with
normalized name "high park", yet the backfill appends the catalog entry
"High Park" anyway (position 3), so an appended entry is not distinct from
an already-accepted location — refuting the claimed distinctness of
backfilled entries. -/
theorem c3_counterexample :
    (uniqueAccepted [c3Cand] [] []).map (fun l => normKey l.name) = ["high park"] ∧
    ((generateLocationRecommendations c3Rounds).toOption.map fun ls =>
        ls.map fun l => normKey l.name) =
      some ["high park", "cn tower", "st. lawrence market", "high park",
            "royal ontario museum"] := by
  exact ⟨rfl, rfl⟩

/-- C4 (amended): when all four search strategies succeed with zero relevant
results, `searchXProfile` throws the generic all-strategies-failed error and
the persona route answers HTTP 500 (not 404; 404 is reserved for the case
where search succeeded but extraction produced no tweets). -/
theorem c4_search_exhaustion_500 (xh : String) (outcomes : List StratOutcome)
    (c : Option (List ExaResult)) (g : Option ParsedPersona)
    (hxh : xh ≠ "") (_hlen : outcomes.length = 4)
    (hall : outcomes.all (strategyYieldsNoRelevant (stripAt (stripAt xh))) = true) :
    searchXProfile true (stripAt xh) outcomes c =
      Except.error (ExaFailure.apiError "All search strategies failed to find relevant content") ∧
    (personaPOST (some xh) outcomes c g).status = 500 ∧
    (personaPOST (some xh) outcomes c g).success = false ∧
    (personaPOST (some xh) outcomes c g).status ≠ 404 := by
  have hs := searchXProfile_no_relevant (stripAt xh) outcomes c hall
  have hroute := personaPOST_error_of_search xh outcomes c g _ hxh hs
  rw [hroute]
  exact ⟨hs, rfl, rfl, by decide⟩

/-- C4 witness: four concrete strategies each succeeding with an empty
results array. -/
theorem c4_witness :
    searchXProfile true (stripAt "dave") (List.replicate 4 (StratOutcome.ok [])) none =
      Except.error (ExaFailure.apiError "All search strategies failed to find relevant content") ∧
    (personaPOST (some "dave") (List.replicate 4 (StratOutcome.ok [])) none none).status = 500 ∧
    (personaPOST (some "dave") (List.replicate 4 (StratOutcome.ok [])) none none).success =
      false ∧
    (personaPOST (some "dave") (List.replicate 4 (StratOutcome.ok [])) none none).status ≠ 404 :=
  c4_search_exhaustion_500 "dave" (List.replicate 4 (StratOutcome.ok [])) none none
    (by decide) (by decide) (by decide)

/-- C4 counterexample: all four strategies yield zero relevant results for
the handle `carl`, yet the persona route answers 500 — refuting the claimed
404 / NoUsableResults outcome. -/
theorem c4_counterexample :
    (personaPOST (some "carl") (List.replicate 4 (StratOutcome.ok [])) none none).status = 500 ∧
    (personaPOST (some "carl") (List.replicate 4 (StratOutcome.ok [])) none none).status ≠ 404 := by
  exact ⟨rfl, by decide⟩

/-- C5 (amended): provided the capitalized requested handle is not itself the
placeholder string, no persona produced by the persona route has the name
"Unknown User", and whenever the generation call returned the placeholder the
output name is the capitalized requested handle.  (The proviso is necessary:
the counterexample exhibits a handle whose capitalization *is* the
placeholder, for which the route emits "Unknown User".) -/
theorem c5_name_never_placeholder (xh : String) (outcomes : List StratOutcome)
    (c : Option (List ExaResult)) (g : Option ParsedPersona) (p : FinalPersona)
    (hcap : capitalize (stripAt xh) ≠ "Unknown User")
    (hp : (personaPOST (some xh) outcomes c g).personaOut = some p) :
    p.name ≠ "Unknown User" ∧
      (∀ pr, g = some pr → pr.name = some "Unknown User" →
        p.name = capitalize (stripAt xh)) := by
  obtain ⟨rs, pi, pd, _, _, hgen, hpeq⟩ := personaPOST_personaOut xh outcomes c g p hp
  obtain ⟨pr, hg, hne, hname⟩ := generatePersona_ok_name (stripAt xh) g pd hgen
  by_cases hUU : pr.name.getD "" = "Unknown User"
  · have hpd : pd.name = capitalize (stripAt xh) := by rw [hname, if_pos hUU]
    have hpdne : pd.name ≠ "Unknown User" := by rw [hpd]; exact hcap
    have hpname : p.name = capitalize (stripAt xh) := by
      rw [hpeq]
      simp only [if_neg hpdne]
      exact hpd
    refine ⟨by rw [hpname]; exact hcap, ?_⟩
    intro pr2 hg2 _
    exact hpname
  · have hpd : pd.name = pr.name.getD "" := by rw [hname, if_neg hUU]
    have hpdne : pd.name ≠ "Unknown User" := by rw [hpd]; exact hUU
    refine ⟨?_, ?_⟩
    · rw [hpeq]
      simp only [if_neg hpdne]
      exact hpdne
    · intro pr2 hg2 hname2
      rw [hg] at hg2
      have : pr = pr2 := by injection hg2
      subst this
      rw [hname2] at hUU
      simp at hUU

/-- C5 witness: a concrete run for the handle `alice` whose generation call
returned "Unknown User"; the output name is "Alice". -/
theorem c5_witness :
    capitalize (stripAt "alice") ≠ "Unknown User" ∧
    (personaPOST (some "alice") [StratOutcome.ok [aliceResult]] none
        (some uuParsed)).personaOut =
      some ⟨"Alice", "alice", some "bio", ["t"], ["i"], none⟩ ∧
    ((⟨"Alice", "alice", some "bio", ["t"], ["i"], none⟩ : FinalPersona).name ≠ "Unknown User" ∧
      (∀ pr, (some uuParsed : Option ParsedPersona) = some pr →
        pr.name = some "Unknown User" →
        (⟨"Alice", "alice", some "bio", ["t"], ["i"], none⟩ : FinalPersona).name =
          capitalize (stripAt "alice"))) :=
  ⟨by decide, by rfl,
   c5_name_never_placeholder "alice" [StratOutcome.ok [aliceResult]] none (some uuParsed)
     ⟨"Alice", "alice", some "bio", ["t"], ["i"], none⟩ (by decide) (by rfl)⟩

/-- C5 counterexample: for the handle "unknown User" (whose capitalization
is the placeholder) with a generation response naming "Unknown User", the
route returns a 200 persona whose name *is* "Unknown User" — refuting the
claim that the output name is never the placeholder. -/
theorem c5_counterexample :
    (personaPOST (some "unknown User") [StratOutcome.ok [uuResult]] none
        (some uuParsed)).success = true ∧
    (personaPOST (some "unknown User") [StratOutcome.ok [uuResult]] none
        (some uuParsed)).personaOut =
      some ⟨"Unknown User", "unknown User", some "bio", ["t"], ["i"], none⟩ := by
  exact ⟨rfl, rfl⟩

/-- C6 (amended): `generatePersona` rejects a response exactly when its name
is missing or empty or its `traits` / `interests` field is absent; an empty
(but present) `traits` or `interests` array passes the `!personaData.traits`
truthiness check (arrays are truthy in JS) and is returned verbatim in the
persona. -/
theorem c6_empty_arrays_pass (handle : String) (pr : ParsedPersona) :
    ((∃ per, generatePersona handle (some pr) = Except.ok per) ↔
      (pr.name.getD "" ≠ "" ∧ pr.traits ≠ none ∧ pr.interests ≠ none))
    ∧ (∀ ts per, pr.traits = some ts →
        generatePersona handle (some pr) = Except.ok per → per.traits = ts)
    ∧ (∀ ints per, pr.interests = some ints →
        generatePersona handle (some pr) = Except.ok per → per.interests = ints) := by
  simp only [generatePersona]
  split
  · rename_i hcond
    refine ⟨⟨fun ⟨per, hper⟩ => by simp at hper, fun hok => ?_⟩, ?_, ?_⟩
    · rcases hcond with h | h | h
      · exact absurd h hok.1
      · exact absurd h hok.2.1
      · exact absurd h hok.2.2
    · intro ts per _ hper
      simp at hper
    · intro ints per _ hper
      simp at hper
  · rename_i hcond
    push_neg at hcond
    refine ⟨⟨fun _ => ⟨hcond.1, hcond.2.1, hcond.2.2⟩, fun _ => ⟨_, rfl⟩⟩, ?_, ?_⟩
    · intro ts per hts hper
      simp only [Except.ok.injEq] at hper
      rw [← hper]
      simp [hts]
    · intro ints per hints hper
      simp only [Except.ok.injEq] at hper
      rw [← hper]
      simp [hints]

/-- C6 witness: a response with an empty traits array is accepted and its
empty array survives into the persona. -/
theorem c6_witness :
    (∃ per, generatePersona "w" (some ⟨some "N", none, none, some [], some ["x"]⟩) =
      Except.ok per) ∧
    (∀ per, generatePersona "w" (some ⟨some "N", none, none, some [], some ["x"]⟩) =
      Except.ok per → per.traits = ([] : List String)) :=
  ⟨(c6_empty_arrays_pass "w" ⟨some "N", none, none, some [], some ["x"]⟩).1.mpr
     (by refine ⟨by decide, by decide, by decide⟩),
   fun per hper =>
     (c6_empty_arrays_pass "w" ⟨some "N", none, none, some [], some ["x"]⟩).2.1 [] per rfl hper⟩

/-- C6 counterexample: a parsed response with `traits: []` is *not* rejected;
`generatePersona` returns a persona whose traits list is empty — refuting
the claimed schema-invalid rejection of empty arrays. -/
theorem c6_counterexample :
    generatePersona "h" (some ⟨some "Name", some "ig", some "b", some [], some ["i"]⟩) =
      Except.ok ⟨"Name", "h", some "b", [], ["i"]⟩ := by
  rfl

/-- C7 (amended): a produced Location's website equals the filtered raw
website; the filter yields `none` exactly when the raw string is non-empty
and contains `google.com/maps`, or does not start with `http`, or contains
no `.` anywhere in the whole string (not specifically in its host);
otherwise the raw string is preserved verbatim (an absent raw website stays
absent). -/
theorem c7_website_filter :
    (∀ raw : RawLocation, (toLocation raw).website = websiteFilter raw.website)
    ∧ (∀ s : String,
        (websiteFilter (some s) = none ↔
          s ≠ "" ∧ (strIncludes s "google.com/maps" || !strStarts s "http" ||
            !strIncludes s ".") = true)
        ∧ (websiteFilter (some s) ≠ none → websiteFilter (some s) = some s))
    ∧ websiteFilter none = none := by
  refine ⟨fun raw => rfl, fun s => ?_, rfl⟩
  simp only [websiteFilter]
  split
  · rename_i hs
    subst hs
    exact ⟨by simp, fun _ => rfl⟩
  · rename_i hs
    split
    · rename_i hcond
      exact ⟨⟨fun _ => ⟨hs, hcond⟩, fun _ => rfl⟩, fun hne => absurd rfl hne⟩
    · rename_i hcond
      refine ⟨⟨fun heq => by simp at heq, fun hok => absurd hok.2 hcond⟩, fun _ => rfl⟩

/-- C7 witness: a regular official website is preserved verbatim. -/
theorem c7_witness :
    (websiteFilter (some "https://example.com/") = none ↔
      ("https://example.com/" : String) ≠ "" ∧
        (strIncludes "https://example.com/" "google.com/maps" ||
          !strStarts "https://example.com/" "http" ||
          !strIncludes "https://example.com/" ".") = true)
    ∧ (websiteFilter (some "https://example.com/") ≠ none →
        websiteFilter (some "https://example.com/") = some "https://example.com/") :=
  c7_website_filter.2.1 "https://example.com/"

/-- C7 counterexample: the raw website `http://localhost/a.b` has no `.` in
its host (`localhost`) so the claim requires the website to be absent, but
the code only checks for a `.` anywhere in the string and preserves it
verbatim. -/
theorem c7_counterexample :
    (toLocation ⟨"A", "B", "d", none, none, none,
        some "http://localhost/a.b"⟩).website = some "http://localhost/a.b" ∧
    specWebsiteMissing "http://localhost/a.b" = true := by
  exact ⟨rfl, rfl⟩

/-- C8 (amended): every location in a successful batch recommendation either
comes from the backfill catalog or is a converted accepted candidate whose
coordinates are the candidate's own coordinates when present and the default
Toronto center only when the candidate had none — i.e. the default is a
missing-field repair, and no bounding-region validation is performed. -/
theorem c8_coordinates_repair (r : GenRounds) (d1 : List RawLocation) (locs : List Location)
    (h1 : r.round1 = some d1) (h2 : generateLocationRecommendations r = Except.ok locs) :
    ∀ loc ∈ locs, loc ∈ defaultLocations ∨
      ∃ raw ∈ uniqueAccepted d1 r.round2 r.round3,
        loc = toLocation raw ∧ loc.coordinates = raw.coordinates.getD torontoCenter := by
  have heq := generateLocations_eq r d1 h1
  rw [heq] at h2
  simp only [Except.ok.injEq] at h2
  subst h2
  intro loc hloc
  rcases List.mem_append.1 hloc with hm | hm
  · right
    rcases List.mem_map.1 hm with ⟨raw, hraw, hconv⟩
    refine ⟨raw, (List.take_sublist 5 _).mem hraw, hconv.symm, ?_⟩
    rw [← hconv]
    rfl
  · left
    exact (List.take_sublist _ _).mem hm

/-- C8 witness: the concrete out-of-region candidate run, instantiating the
repair characterization at the converted candidate itself. -/
theorem c8_witness :
    toLocation c8Cand ∈ defaultLocations ∨
      ∃ raw ∈ uniqueAccepted [c8Cand] c8Rounds.round2 c8Rounds.round3,
        toLocation c8Cand = toLocation raw ∧
          (toLocation c8Cand).coordinates = raw.coordinates.getD torontoCenter :=
  c8_coordinates_repair c8Rounds [c8Cand] (toLocation c8Cand :: defaultLocations.take 4)
    rfl (by rfl) (toLocation c8Cand) (List.mem_cons_self _ _)

/-- C8 counterexample: a candidate with coordinates (0, 0) — far outside any
plausible Toronto bounding region — keeps those coordinates in the output
instead of being replaced by the default center, refuting the claimed
region validation. -/
theorem c8_counterexample :
    ((generateLocationRecommendations c8Rounds).toOption.bind (fun ls => ls.head?)).map
        Location.coordinates = some ⟨0, 0⟩ ∧
    inTorontoRegion ⟨0, 0⟩ = false ∧ ((⟨0, 0⟩ : Coordinates) ≠ torontoCenter) := by
  refine ⟨rfl, rfl, ?_⟩
  intro h
  have hl := congrArg Coordinates.lat h
  simp only [torontoCenter] at hl
  norm_num at hl

/-- C9: in the strategy loop, a 429 (rate-limit) or 401 (auth) error aborts
immediately — the result is the abort no matter what strategies follow;
a timeout or other transport error moves on to the next strategy (recording
the error); and the loop ends with no recorded error — the path that
produces the generic no-results failure — exactly when every strategy
succeeded with zero relevant results. -/
theorem c9_strategy_loop_policy :
    (∀ (h : String) (pre post : List StratOutcome) (e : ReqError) (last : Option ReqError),
        (∀ o ∈ pre, strategyAdvances h o = true) →
        (e.status = some 429 ∨ e.status = some 401) →
        strategyLoop h (pre ++ StratOutcome.err e :: post) last = LoopResult.aborted e)
    ∧ (∀ (h : String) (e : ReqError) (rest : List StratOutcome) (last : Option ReqError),
        ¬(e.status = some 429 ∨ e.status = some 401) →
        strategyLoop h (StratOutcome.err e :: rest) last = strategyLoop h rest (some e))
    ∧ (∀ (h : String) (outcomes : List StratOutcome),
        strategyLoop h outcomes none = LoopResult.exhausted none ↔
          outcomes.all (strategyYieldsNoRelevant h) = true) :=
  ⟨strategyLoop_abort, strategyLoop_skip_err, strategyLoop_exhausted_none_iff⟩

/-- C9 witness: a concrete rate-limit abort with a pending strategy that is
never consulted, a concrete timeout that advances, and the concrete
exhaustion equivalence. -/
theorem c9_witness :
    strategyLoop "x"
        ([StratOutcome.ok []] ++ StratOutcome.err ⟨some 429, none, none, "rate limited"⟩ ::
          [StratOutcome.ok [⟨some "@x profile page with much content", none, none, none⟩]])
        none =
      LoopResult.aborted ⟨some 429, none, none, "rate limited"⟩ ∧
    strategyLoop "x"
        (StratOutcome.err ⟨none, some "ECONNABORTED", none, "timeout of 30000ms exceeded"⟩ ::
          [StratOutcome.ok []]) none =
      strategyLoop "x" [StratOutcome.ok []]
        (some ⟨none, some "ECONNABORTED", none, "timeout of 30000ms exceeded"⟩) ∧
    (strategyLoop "x" [StratOutcome.ok []] none = LoopResult.exhausted none ↔
      ([StratOutcome.ok []]).all (strategyYieldsNoRelevant "x") = true) :=
  ⟨c9_strategy_loop_policy.1 "x" [StratOutcome.ok []]
     [StratOutcome.ok [⟨some "@x profile page with much content", none, none, none⟩]]
     ⟨some 429, none, none, "rate limited"⟩ none (by decide) (by decide),
   c9_strategy_loop_policy.2.1 "x" ⟨none, some "ECONNABORTED", none, "timeout of 30000ms exceeded"⟩
     [StratOutcome.ok []] none (by decide),
   c9_strategy_loop_policy.2.2 "x" [StratOutcome.ok []]⟩

/-- C10 (amended): `extractProfileInfo` throws exactly on a null result
object or a non-array results field, and never raises on an array — on the
empty array it returns empty tweets, the requested handle, the capitalized
handle as name, and as bio the *inferred* default (the capitalized handle
followed by " X user @handle", or the organization variant when the
capitalized handle contains an organization token), not the initialized
default "X user @handle" described by the claim. -/
theorem c10_extraction_total :
    (∀ h : String, extractProfileInfo none h =
        Except.error "No valid search results received from Exa API")
    ∧ (∀ h : String, extractProfileInfo (some ResultsField.invalid) h =
        Except.error "No valid search results received from Exa API")
    ∧ (∀ (h : String) (rs : List ExaResult), ∃ pi,
        extractProfileInfo (some (ResultsField.arr rs)) h = Except.ok pi)
    ∧ (∀ h : String, extractProfileInfo (some (ResultsField.arr [])) h =
        Except.ok ⟨[], generateInferredBio (capitalize h) h [], none, capitalize h, h⟩)
    ∧ (∀ h : String, generateInferredBio (capitalize h) h [] =
        if strIncludes (capitalize h) "DAO" || strIncludes (capitalize h) "Corp" ||
            strIncludes (capitalize h) "Inc" || strIncludes (capitalize h) "Lab" ||
            strIncludes (capitalize h) "Studio" || strIncludes (capitalize h) "Team" then
          capitalize h ++ " • Organization • Follow us on X @" ++ h
        else capitalize h ++ " X user @" ++ h) :=
  ⟨fun _ => rfl, fun _ => rfl, fun _ _ => ⟨_, rfl⟩, fun _ => rfl, fun _ => rfl⟩

/-- C10 witness: concrete instances of the throw cases, totality on a
one-record array, and the empty-array output. -/
theorem c10_witness :
    extractProfileInfo none "w" =
      Except.error "No valid search results received from Exa API" ∧
    (∃ pi, extractProfileInfo (some (ResultsField.arr [⟨none, none, none, none⟩])) "w" =
      Except.ok pi) ∧
    extractProfileInfo (some (ResultsField.arr [])) "w" =
      Except.ok ⟨[], generateInferredBio (capitalize "w") "w" [], none, capitalize "w", "w"⟩ :=
  ⟨c10_extraction_total.1 "w",
   c10_extraction_total.2.2.1 "w" [⟨none, none, none, none⟩],
   c10_extraction_total.2.2.2.1 "w"⟩

/-- C10 counterexample: for the handle `alice` and an empty results array,
the returned bio is "Alice X user @alice" — the inferred default, not the
initialized default "X user @alice" that the claim describes. -/
theorem c10_counterexample :
    extractProfileInfo (some (ResultsField.arr [])) "alice" =
      Except.ok ⟨[], "Alice X user @alice", none, "Alice", "alice"⟩ ∧
    ("Alice X user @alice" : String) ≠ "X user @alice" := by
  exact ⟨rfl, by decide⟩
